import Mathlib

/-!
Shallow embedding of the django-secure-media core: the policy / registry /
enforcement-gate engine from

  * src/django_secure_media/policies.py      (MediaAccessPolicy, MediaAccessPolicyRegistry)
  * src/django_secure_media/decorators.py    (secure_media_path / check_path gate)
  * src/django_secure_media/__init__.py      (free function register)

Modelling conventions:
  * A media path is either a text string or a raw byte string (Python str | bytes);
    bytes are lists of natural numbers below 256.
  * Python exceptions are modelled with Except.  The exception universe PyExc
    distinguishes Http404 and a would-be HttpResponseForbidden class (the code
    never raises the latter; the distinction makes "never a forbidden class"
    provable), plus arbitrary caller exceptions of type epsilon.
  * Caller-supplied predicates (access_check) may raise, so they return
    Except (PyExc epsilon) Bool.
  * Mutation of a registry (list append) is modelled functionally: the
    operation returns the updated registry.
-/

namespace DjangoSecureMedia

/-- A media path value: Python str or bytes (os.fspath is the identity on both). -/
inductive MPath where
  | text (s : String)
  | bytes (b : List Nat)
deriving DecidableEq, Repr

/-- Exception universe seen by the gate: Http404, an HttpResponseForbidden class
(never raised by this code, present so that "not a forbidden error" is a real
statement), and arbitrary exceptions raised by caller-supplied predicates. -/
inductive PyExc (ε : Type) where
  | http404 (msg : String)
  | forbidden (msg : String)
  | other (e : ε)
deriving DecidableEq, Repr

/-- UTF-8 encoding of a single character, as Python str.encode produces for it. -/
def utf8Bytes (c : Char) : List Nat :=
  let n := c.toNat
  if n < 0x80 then [n]
  else if n < 0x800 then [0xC0 ||| (n >>> 6), 0x80 ||| (n &&& 0x3F)]
  else if n < 0x10000 then
    [0xE0 ||| (n >>> 12), 0x80 ||| ((n >>> 6) &&& 0x3F), 0x80 ||| (n &&& 0x3F)]
  else
    [0xF0 ||| (n >>> 18), 0x80 ||| ((n >>> 12) &&& 0x3F),
     0x80 ||| ((n >>> 6) &&& 0x3F), 0x80 ||| (n &&& 0x3F)]

/-- UTF-8 encoding of a character list. -/
def encList : List Char → List Nat
  | [] => []
  | c :: cs => utf8Bytes c ++ encList cs

/-- Model of Python str.encode(): UTF-8 bytes of a text string. -/
def pyEncode (s : String) : List Nat :=
  encList s.data

/-- Model of Python startswith for a single candidate: the first argument is the
candidate leading segment, the second the whole sequence. -/
def startsWithList {α : Type} [DecidableEq α] : List α → List α → Bool
  | [], _ => true
  | _ :: _, [] => false
  | p :: ps, x :: xs => if p = x then startsWithList ps xs else false

/-- MediaAccessPolicy (policies.py lines 10-36): a tuple of restricted path
leading segments (str values, per the source annotation tuple[str, ...]) plus a
caller-supplied access_check predicate over a request context kappa. -/
structure MediaAccessPolicy (κ ε : Type) where
  restricted_prefixes : List String
  access_check : κ → MPath → Except (PyExc ε) Bool

/-- MediaAccessPolicy.matches (policies.py lines 21-30): os.fspath the path
(identity on str and bytes); when the path is bytes, encode every restricted
entry and test bytes startswith; otherwise test str startswith.  startswith
with a tuple argument is a disjunction over the entries. -/
def MediaAccessPolicy.matches {κ ε : Type} (P : MediaAccessPolicy κ ε) (path : MPath) : Bool :=
  match path with
  | MPath.bytes bs => (P.restricted_prefixes.map pyEncode).any (fun pre => startsWithList pre bs)
  | MPath.text s => P.restricted_prefixes.any (fun pre => startsWithList pre.data s.data)

/-- MediaAccessPolicy.is_allowed (policies.py lines 32-36): delegate to the
injected predicate, passing both arguments through unchanged. -/
def MediaAccessPolicy.is_allowed {κ ε : Type} (P : MediaAccessPolicy κ ε) (request : κ)
    (path : MPath) : Except (PyExc ε) Bool :=
  P.access_check request path

/-- MediaAccessPolicyRegistry (policies.py lines 39-72): an ordered list of
policies plus the default decision for unmatched paths (source default True). -/
structure MediaAccessPolicyRegistry (κ ε : Type) where
  policies : List (MediaAccessPolicy κ ε)
  default_allow : Bool := true

/-- MediaAccessPolicyRegistry.register (policies.py lines 50-54): append the
policy at the end of the list (modelled functionally). -/
def MediaAccessPolicyRegistry.register {κ ε : Type} (R : MediaAccessPolicyRegistry κ ε)
    (policy : MediaAccessPolicy κ ε) : MediaAccessPolicyRegistry κ ε :=
  { R with policies := R.policies ++ [policy] }

/-- MediaAccessPolicyRegistry.get_policy_for_path (policies.py lines 56-63):
scan the policies in registration order and return the first whose matches is
true, None when there is none. -/
def MediaAccessPolicyRegistry.get_policy_for_path {κ ε : Type}
    (R : MediaAccessPolicyRegistry κ ε) (path : MPath) : Option (MediaAccessPolicy κ ε) :=
  R.policies.find? (fun policy => policy.matches path)

/-- MediaAccessPolicyRegistry.is_allowed (policies.py lines 65-72): resolve the
governing policy; a policy object is always truthy in Python, so the if reduces
to an is-not-None test; delegate when found, otherwise default_allow. -/
def MediaAccessPolicyRegistry.is_allowed {κ ε : Type} (R : MediaAccessPolicyRegistry κ ε)
    (request : κ) (path : MPath) : Except (PyExc ε) Bool :=
  match R.get_policy_for_path path with
  | some policy => policy.is_allowed request path
  | none => Except.ok R.default_allow

/-- check_path (decorators.py lines 17-22), gate body after the registry is
resolved: evaluate registry.is_allowed (a predicate exception propagates), raise
Http404 "Restricted media file" on denial without touching the view, otherwise
forward all arguments to the view and return its result unchanged. -/
def check_path {κ ε α ρ : Type} (registry : MediaAccessPolicyRegistry κ ε)
    (view_func : κ → MPath → α → Except (PyExc ε) ρ)
    (request : κ) (path : MPath) (args : α) : Except (PyExc ε) ρ :=
  match registry.is_allowed request path with
  | Except.error e => Except.error e
  | Except.ok allowed =>
    if allowed then view_func request path args
    else Except.error (PyExc.http404 "Restricted media file")

/-- secure_media_path (decorators.py lines 10-27): the decorator resolves the
effective registry (an explicitly supplied registry takes precedence over the
process-wide default; registry objects are always truthy) and wraps the view
with check_path. -/
def secure_media_path {κ ε α ρ : Type} (policy_registry : Option (MediaAccessPolicyRegistry κ ε))
    (default_registry : MediaAccessPolicyRegistry κ ε)
    (view_func : κ → MPath → α → Except (PyExc ε) ρ) : κ → MPath → α → Except (PyExc ε) ρ :=
  fun request path args =>
    check_path (match policy_registry with
      | some R => R
      | none => default_registry) view_func request path args

/-- A dynamically typed Python value, as far as the free function register
(package __init__.py lines 17-33) inspects one: a MediaAccessPolicy instance, a
MediaAccessPolicyRegistry instance, or anything else, of which only the Python
truthiness is relevant (the or-default idiom tests truthiness). -/
inductive PyVal (κ ε : Type) where
  | pol (P : MediaAccessPolicy κ ε)
  | reg (R : MediaAccessPolicyRegistry κ ε)
  | other (isTruthy : Bool)

/-- Python truthiness of a PyVal: policy and registry instances define neither
a bool nor a len hook, so they are always truthy. -/
def PyVal.truthy {κ ε : Type} : PyVal κ ε → Bool
  | PyVal.other t => t
  | _ => true

/-- Error raised by the free function register: the source raises ValueError. -/
inductive PyError where
  | valueError (msg : String)
deriving DecidableEq, Repr

/-- The idiom registry = policy_registry or default_registry in register
(package __init__.py line 26): the supplied value when it is truthy, otherwise
the process-wide default registry. -/
def resolveRegistry {κ ε : Type} (policy_registry : Option (PyVal κ ε))
    (default_registry : MediaAccessPolicyRegistry κ ε) : PyVal κ ε :=
  match policy_registry with
  | some v => if v.truthy then v else PyVal.reg default_registry
  | none => PyVal.reg default_registry

/-- Free function register (package __init__.py lines 17-33): resolve the
target registry, check isinstance MediaAccessPolicyRegistry (raising ValueError
otherwise), then check isinstance MediaAccessPolicy for the policy (raising
ValueError otherwise), and only then append the policy to the target registry.
Mutation is modelled by returning the updated registry; an error therefore
leaves every registry unchanged. -/
def register {κ ε : Type} (media_policy : PyVal κ ε) (policy_registry : Option (PyVal κ ε))
    (default_registry : MediaAccessPolicyRegistry κ ε) :
    Except PyError (MediaAccessPolicyRegistry κ ε) :=
  match resolveRegistry policy_registry default_registry with
  | PyVal.reg R =>
    match media_policy with
    | PyVal.pol P => Except.ok (R.register P)
    | _ => Except.error (PyError.valueError "Wrapped class must subclass MediaAccessPolicy.")
  | _ => Except.error (PyError.valueError "registry must subclass MediaAccessPolicyRegistry")

/-- A Python str or bytes value, for evaluating MediaAccessPolicy.matches on
inputs outside the source annotation tuple[str, ...] (dynamic typing allows
constructing a policy whose restricted entries are bytes). -/
inductive PyStrB where
  | s (v : String)
  | b (v : List Nat)
deriving DecidableEq, Repr

/-- Dynamic-typing errors CPython raises inside matches when a restricted entry
is a bytes object: bytes have no encode method (AttributeError), and
str.startswith rejects a bytes candidate (TypeError). -/
inductive DynErr where
  | typeError
  | attributeError
deriving DecidableEq, Repr

/-- The eager tuple(p.encode() for p in self.restricted_prefixes) of matches
(policies.py line 27) over dynamically typed entries: tuple() consumes the whole
generator, so any bytes entry raises AttributeError (bytes has no encode). -/
def encodeAll : List PyStrB → Except DynErr (List (List Nat))
  | [] => Except.ok []
  | PyStrB.s t :: rest =>
    match encodeAll rest with
    | Except.ok l => Except.ok (pyEncode t :: l)
    | Except.error e => Except.error e
  | PyStrB.b _ :: _ => Except.error DynErr.attributeError

/-- CPython str.startswith with a tuple of dynamically typed candidates: the
entries are visited left to right, each is first type-checked (a bytes entry
raises TypeError) and then tested, returning True at the first hit. -/
def startswithTupleStr (sv : String) : List PyStrB → Except DynErr Bool
  | [] => Except.ok false
  | PyStrB.s t :: rest =>
    if startsWithList t.data sv.data then Except.ok true else startswithTupleStr sv rest
  | PyStrB.b _ :: _ => Except.error DynErr.typeError

/-- MediaAccessPolicy.matches (policies.py lines 21-30) evaluated under CPython
dynamic typing, for restricted entries that may be str or bytes: the bytes-path
branch eagerly encodes every entry, the text-path branch hands the tuple to
str.startswith.  On all-str entries this agrees with matches (see the
matchesDyn agreement lemmas below). -/
def matchesDyn (restricted : List PyStrB) (path : PyStrB) : Except DynErr Bool :=
  match path with
  | PyStrB.b bs =>
    match encodeAll restricted with
    | Except.ok prefs => Except.ok (prefs.any (fun pre => startsWithList pre bs))
    | Except.error e => Except.error e
  | PyStrB.s sv => startswithTupleStr sv restricted

/-! Helper lemmas. -/

theorem startsWithList_self_append {α : Type} [DecidableEq α] (p t : List α) :
    startsWithList p (p ++ t) = true := by
  induction p with
  | nil => rfl
  | cons a ps ih => simp [startsWithList, ih]

theorem encList_append (a b : List Char) :
    encList (a ++ b) = encList a ++ encList b := by
  induction a with
  | nil => rfl
  | cons c cs ih => simp [encList, ih]

theorem pyEncode_append (s t : String) :
    pyEncode (s ++ t) = pyEncode s ++ pyEncode t := by
  simp [pyEncode, String.data_append, encList_append]

theorem find?_app_of_some {α : Type} (p : α → Bool) (l1 l2 : List α) (a : α)
    (h : l1.find? p = some a) : (l1 ++ l2).find? p = some a := by
  rw [List.find?_append, h]
  rfl

theorem find?_app_of_none {α : Type} (p : α → Bool) (l1 l2 : List α)
    (h : l1.find? p = none) : (l1 ++ l2).find? p = l2.find? p := by
  rw [List.find?_append, h]
  rfl

theorem find?_none_iff {α : Type} (p : α → Bool) (l : List α) :
    l.find? p = none ↔ ∀ x ∈ l, p x = false := by
  simp [List.find?_eq_none]

theorem find?_first_split {α : Type} (p : α → Bool) (l : List α) (a : α)
    (h : l.find? p = some a) :
    ∃ l1 l2, l = l1 ++ a :: l2 ∧ p a = true ∧ ∀ x ∈ l1, p x = false := by
  induction l with
  | nil => simp [List.find?] at h
  | cons x xs ih =>
    cases hpx : p x with
    | true =>
      rw [List.find?_cons_of_pos xs hpx] at h
      injection h with h
      exact ⟨[], xs, by simp [h], h ▸ hpx, by simp⟩
    | false =>
      have hneg : ¬ p x = true := by simp [hpx]
      rw [List.find?_cons_of_neg xs hneg] at h
      obtain ⟨l1, l2, hsplit, hpa, hnone⟩ := ih h
      refine ⟨x :: l1, l2, by simp [hsplit], hpa, ?_⟩
      intro y hy
      rcases List.mem_cons.mp hy with hy | hy
      · exact hy ▸ hpx
      · exact hnone y hy

theorem find?_of_first {α : Type} (p : α → Bool) (l1 l2 : List α) (a : α)
    (h1 : ∀ x ∈ l1, p x = false) (h2 : p a = true) :
    (l1 ++ a :: l2).find? p = some a := by
  have hnone : l1.find? p = none := (find?_none_iff p l1).mpr h1
  rw [find?_app_of_none p l1 (a :: l2) hnone, List.find?_cons_of_pos l2 h2]

theorem matches_text_of_mem {κ ε : Type} (P : MediaAccessPolicy κ ε) (pre t : String)
    (h : pre ∈ P.restricted_prefixes) : P.matches (MPath.text (pre ++ t)) = true := by
  show P.restricted_prefixes.any (fun q => startsWithList q.data (pre ++ t).data) = true
  refine List.any_eq_true.mpr ⟨pre, h, ?_⟩
  show startsWithList pre.data (pre ++ t).data = true
  rw [String.data_append]
  exact startsWithList_self_append _ _

theorem matches_bytes_of_mem {κ ε : Type} (P : MediaAccessPolicy κ ε) (pre t : String)
    (h : pre ∈ P.restricted_prefixes) :
    P.matches (MPath.bytes (pyEncode (pre ++ t))) = true := by
  show (P.restricted_prefixes.map pyEncode).any
      (fun q => startsWithList q (pyEncode (pre ++ t))) = true
  refine List.any_eq_true.mpr ⟨pyEncode pre, List.mem_map_of_mem _ h, ?_⟩
  show startsWithList (pyEncode pre) (pyEncode (pre ++ t)) = true
  rw [pyEncode_append]
  exact startsWithList_self_append _ _

theorem encodeAll_map_s (l : List String) :
    encodeAll (l.map PyStrB.s) = Except.ok (l.map pyEncode) := by
  induction l with
  | nil => rfl
  | cons t rest ih => simp [encodeAll, ih]

theorem startswithTupleStr_map_s (sv : String) (l : List String) :
    startswithTupleStr sv (l.map PyStrB.s)
      = Except.ok (l.any (fun t => startsWithList t.data sv.data)) := by
  induction l with
  | nil => rfl
  | cons t rest ih =>
    by_cases hp : startsWithList t.data sv.data = true
    · simp [startswithTupleStr, hp]
    · simp only [Bool.not_eq_true] at hp
      simp [startswithTupleStr, hp, ih]

/-- On entries that are all str, the dynamic evaluation of matches agrees with
the typed embedding, on both path representations. -/
theorem matchesDyn_agrees {κ ε : Type} (P : MediaAccessPolicy κ ε) (path : MPath) :
    matchesDyn (P.restricted_prefixes.map PyStrB.s)
        (match path with
          | MPath.text s => PyStrB.s s
          | MPath.bytes b => PyStrB.b b)
      = Except.ok (P.matches path) := by
  cases path with
  | text s => simp [matchesDyn, startswithTupleStr_map_s, MediaAccessPolicy.matches]
  | bytes b => simp [matchesDyn, encodeAll_map_s, MediaAccessPolicy.matches]

/-! Claim theorems. -/

/-- C1: when the registry denies (is_allowed returns false), the gate raises
Http404 "Restricted media file", never a forbidden-class error, and the wrapped
operation is never invoked (the outcome is identical for every wrapped
operation); when the registry allows, the gate forwards the call to the wrapped
operation with all arguments unchanged and returns its result unchanged. -/
theorem gate_denial_and_passthrough {κ ε α ρ : Type} (R : MediaAccessPolicyRegistry κ ε)
    (op : κ → MPath → α → Except (PyExc ε) ρ) (ctx : κ) (p : MPath) (a : α) :
    (R.is_allowed ctx p = Except.ok false →
      check_path R op ctx p a = Except.error (PyExc.http404 "Restricted media file") ∧
      (∀ msg, check_path R op ctx p a ≠ Except.error (PyExc.forbidden msg)) ∧
      (∀ op2 : κ → MPath → α → Except (PyExc ε) ρ,
        check_path R op2 ctx p a = check_path R op ctx p a)) ∧
    (R.is_allowed ctx p = Except.ok true → check_path R op ctx p a = op ctx p a) := by
  constructor
  · intro h
    refine ⟨?_, ?_, ?_⟩ <;> simp [check_path, h]
  · intro h
    simp [check_path, h]

/-- Witness for C1 at a one-policy registry whose predicate denies: the gate
rejects a governed path with Http404 and forwards an ungoverned path. -/
theorem gate_denial_and_passthrough_witness :
    check_path
        (MediaAccessPolicyRegistry.mk
          [MediaAccessPolicy.mk ["images/"] (fun _ _ => Except.ok false)] true
          : MediaAccessPolicyRegistry Unit Unit)
        (fun _ _ _ => Except.ok (7 : Nat)) () (MPath.text "images/a.jpg") ()
      = Except.error (PyExc.http404 "Restricted media file") ∧
    check_path
        (MediaAccessPolicyRegistry.mk
          [MediaAccessPolicy.mk ["images/"] (fun _ _ => Except.ok false)] true
          : MediaAccessPolicyRegistry Unit Unit)
        (fun _ _ _ => Except.ok (7 : Nat)) () (MPath.text "general/x.png") ()
      = Except.ok 7 :=
  by
  refine ⟨((gate_denial_and_passthrough _ _ _ _ _).1 ?_).1,
    (gate_denial_and_passthrough _ _ _ _ _).2 ?_⟩ <;> rfl

/-- C8: a policy constructed with an empty restricted sequence matches no path
at all, text or bytes. -/
theorem empty_restricted_matches_false {κ ε : Type} (P : MediaAccessPolicy κ ε)
    (h : P.restricted_prefixes = []) (path : MPath) : P.matches path = false := by
  cases path <;> simp [MediaAccessPolicy.matches, h]

/-- Witness for C8 at a concrete empty policy on a text and a byte path. -/
theorem empty_restricted_matches_false_witness :
    (MediaAccessPolicy.mk [] (fun _ _ => Except.ok true)
        : MediaAccessPolicy Unit Unit).matches (MPath.text "images/a.jpg") = false ∧
    (MediaAccessPolicy.mk [] (fun _ _ => Except.ok true)
        : MediaAccessPolicy Unit Unit).matches (MPath.bytes [105, 109]) = false :=
  ⟨empty_restricted_matches_false _ rfl _, empty_restricted_matches_false _ rfl _⟩

/-- C9: matching is a literal textual test, not path-segment-aware: a policy
listing "images" matches every text path that begins with those characters,
with no requirement that a path-segment boundary follows. -/
theorem literal_match_not_segment_aware {κ ε : Type} (P : MediaAccessPolicy κ ε)
    (h : "images" ∈ P.restricted_prefixes) (t : String) :
    P.matches (MPath.text ("images" ++ t)) = true :=
  matches_text_of_mem P "images" t h

/-- Witness for C9: the policy over "images" matches "imagesecret/x", whose
first segment is not images. -/
theorem literal_match_not_segment_aware_witness :
    (MediaAccessPolicy.mk ["images"] (fun _ _ => Except.ok true)
        : MediaAccessPolicy Unit Unit).matches (MPath.text "imagesecret/x") = true :=
  literal_match_not_segment_aware _ (by decide) "ecret/x"

/-- C3: get_policy_for_path returns the first (lowest-index) matching policy in
registration order, and None when no policy matches: when the result is None no
policy matches; when the result is some P, the policy list splits as
l1 ++ P :: l2 with P matching and nothing in l1 matching; when some policy
matches, the result is not None; in particular, with policies [P1, P2] and P1
matching, the result is P1. -/
theorem get_policy_first_match {κ ε : Type} (R : MediaAccessPolicyRegistry κ ε) (p : MPath) :
    (R.get_policy_for_path p = none → ∀ P ∈ R.policies, P.matches p = false) ∧
    (∀ P, R.get_policy_for_path p = some P →
      ∃ l1 l2, R.policies = l1 ++ P :: l2 ∧ P.matches p = true ∧
        ∀ Q ∈ l1, Q.matches p = false) ∧
    (∀ P ∈ R.policies, P.matches p = true → ∃ Q, R.get_policy_for_path p = some Q) ∧
    (∀ (P1 P2 : MediaAccessPolicy κ ε) (d : Bool), P1.matches p = true →
      (MediaAccessPolicyRegistry.mk [P1, P2] d).get_policy_for_path p = some P1) := by
  refine ⟨?_, ?_, ?_, ?_⟩
  · intro h P hP
    exact (find?_none_iff _ _).mp h P hP
  · intro P h
    exact find?_first_split _ _ _ h
  · intro P hP hm
    cases hq : R.get_policy_for_path p with
    | none => exact absurd ((find?_none_iff _ _).mp hq P hP) (by simp [hm])
    | some Q => exact ⟨Q, rfl⟩
  · intro P1 P2 d h
    show List.find? (fun policy => policy.matches p) [P1, P2] = some P1
    exact List.find?_cons_of_pos _ h

/-- Witness for C3: with two policies that both match the path, resolution
returns the first registered one. -/
theorem get_policy_first_match_witness :
    (MediaAccessPolicyRegistry.mk
        [MediaAccessPolicy.mk ["images/"] (fun _ _ => Except.ok false),
         MediaAccessPolicy.mk ["images/a"] (fun _ _ => Except.ok true)] true
        : MediaAccessPolicyRegistry Unit Unit).get_policy_for_path (MPath.text "images/a.jpg")
      = some (MediaAccessPolicy.mk ["images/"] (fun _ _ => Except.ok false)) := by
  refine (get_policy_first_match
      (MediaAccessPolicyRegistry.mk
        [MediaAccessPolicy.mk ["images/"] (fun _ _ => Except.ok false),
         MediaAccessPolicy.mk ["images/a"] (fun _ _ => Except.ok true)] true
        : MediaAccessPolicyRegistry Unit Unit)
      (MPath.text "images/a.jpg")).2.2.2 _ _ true ?_
  rfl

/-- C4: is_allowed returns the registry default when no policy matches the
path, and otherwise delegates to the first matching policy, returning its
is_allowed result (which is the injected predicate applied to the request and
path). -/
theorem is_allowed_default_or_first {κ ε : Type} (R : MediaAccessPolicyRegistry κ ε)
    (ctx : κ) (p : MPath) :
    ((∀ P ∈ R.policies, P.matches p = false) →
      R.is_allowed ctx p = Except.ok R.default_allow) ∧
    (∀ l1 (P : MediaAccessPolicy κ ε) l2, R.policies = l1 ++ P :: l2 →
      (∀ Q ∈ l1, Q.matches p = false) → P.matches p = true →
      R.is_allowed ctx p = P.is_allowed ctx p) := by
  constructor
  · intro h
    have hnone : R.get_policy_for_path p = none := (find?_none_iff _ _).mpr h
    simp [MediaAccessPolicyRegistry.is_allowed, hnone]
  · intro l1 P l2 hsplit hnone hm
    have hfind : R.get_policy_for_path p = some P := by
      show R.policies.find? (fun policy => policy.matches p) = some P
      rw [hsplit]
      exact find?_of_first _ _ _ _ hnone hm
    simp [MediaAccessPolicyRegistry.is_allowed, hfind]

/-- Witness for C4: an unmatched path falls back to default_allow, and a
matched path is decided by the first matching policy. -/
theorem is_allowed_default_or_first_witness :
    (MediaAccessPolicyRegistry.mk
        [MediaAccessPolicy.mk ["images/"] (fun _ _ => Except.ok false)] true
        : MediaAccessPolicyRegistry Unit Unit).is_allowed () (MPath.text "general/x.png")
      = Except.ok true ∧
    (MediaAccessPolicyRegistry.mk
        [MediaAccessPolicy.mk ["images/"] (fun _ _ => Except.ok false)] true
        : MediaAccessPolicyRegistry Unit Unit).is_allowed () (MPath.text "images/a.jpg")
      = (MediaAccessPolicy.mk ["images/"] (fun _ _ => Except.ok false)
        : MediaAccessPolicy Unit Unit).is_allowed () (MPath.text "images/a.jpg") := by
  constructor
  · refine (is_allowed_default_or_first _ () (MPath.text "general/x.png")).1 ?_
    decide
  · refine (is_allowed_default_or_first _ () (MPath.text "images/a.jpg")).2
      [] _ [] rfl ?_ ?_
    · decide
    · rfl

/-- C6: a failure raised by the governing policy predicate propagates
unmodified: when the first matching policy for the path has a predicate that
raises e, both registry.is_allowed and the gate raise exactly e, never a
denial. -/
theorem predicate_failure_propagates {κ ε α ρ : Type} (R : MediaAccessPolicyRegistry κ ε)
    (P : MediaAccessPolicy κ ε) (op : κ → MPath → α → Except (PyExc ε) ρ)
    (ctx : κ) (p : MPath) (a : α) (e : PyExc ε)
    (hfirst : R.get_policy_for_path p = some P)
    (hraise : P.access_check ctx p = Except.error e) :
    R.is_allowed ctx p = Except.error e ∧ check_path R op ctx p a = Except.error e := by
  have h1 : R.is_allowed ctx p = Except.error e := by
    simp [MediaAccessPolicyRegistry.is_allowed, hfirst, MediaAccessPolicy.is_allowed, hraise]
  exact ⟨h1, by simp [check_path, h1]⟩

/-- Witness for C6 at a registry whose only policy raises exception 42: both
is_allowed and the gate surface that exception. -/
theorem predicate_failure_propagates_witness :
    (MediaAccessPolicyRegistry.mk
        [MediaAccessPolicy.mk ["images/"]
          (fun _ _ => Except.error (PyExc.other (42 : Nat)))] true
        : MediaAccessPolicyRegistry Unit Nat).is_allowed () (MPath.text "images/a.jpg")
      = Except.error (PyExc.other 42) ∧
    check_path
        (MediaAccessPolicyRegistry.mk
          [MediaAccessPolicy.mk ["images/"]
            (fun _ _ => Except.error (PyExc.other (42 : Nat)))] true
          : MediaAccessPolicyRegistry Unit Nat)
        (fun _ _ _ => Except.ok (7 : Nat)) () (MPath.text "images/a.jpg") ()
      = Except.error (PyExc.other 42) := by
  refine predicate_failure_propagates _
      (MediaAccessPolicy.mk ["images/"]
        (fun _ _ => Except.error (PyExc.other (42 : Nat))) : MediaAccessPolicy Unit Nat)
      _ () (MPath.text "images/a.jpg") () _ ?_ ?_ <;> rfl

/-- C7: registration is append-only and monotone: appending a policy never
changes resolution for a path some existing policy already matched, and a path
matched by no existing policy but matched by the new policy now resolves to the
new policy. -/
theorem register_append_monotone {κ ε : Type} (R : MediaAccessPolicyRegistry κ ε)
    (P : MediaAccessPolicy κ ε) (p : MPath) :
    ((R.get_policy_for_path p).isSome = true →
      (R.register P).get_policy_for_path p = R.get_policy_for_path p) ∧
    (R.get_policy_for_path p = none → P.matches p = true →
      (R.register P).get_policy_for_path p = some P) := by
  constructor
  · intro h
    cases hq : R.get_policy_for_path p with
    | none => rw [hq] at h; simp at h
    | some Q =>
      have hq2 : R.policies.find? (fun policy => policy.matches p) = some Q := hq
      show (R.policies ++ [P]).find? (fun policy => policy.matches p) = some Q
      exact find?_app_of_some _ _ _ _ hq2
  · intro h hm
    have h2 : R.policies.find? (fun policy => policy.matches p) = none := h
    show (R.policies ++ [P]).find? (fun policy => policy.matches p) = some P
    rw [find?_app_of_none _ _ _ h2]
    exact List.find?_cons_of_pos _ hm

/-- Witness for C7: appending a second matching policy leaves resolution at the
first, and appending the first matching policy for a previously unmatched path
resolves to it. -/
theorem register_append_monotone_witness :
    ((MediaAccessPolicyRegistry.mk
        [MediaAccessPolicy.mk ["images/"] (fun _ _ => Except.ok false)] true
        : MediaAccessPolicyRegistry Unit Unit).register
          (MediaAccessPolicy.mk ["images/a"] (fun _ _ => Except.ok true))).get_policy_for_path
        (MPath.text "images/a.jpg")
      = (MediaAccessPolicyRegistry.mk
        [MediaAccessPolicy.mk ["images/"] (fun _ _ => Except.ok false)] true
        : MediaAccessPolicyRegistry Unit Unit).get_policy_for_path (MPath.text "images/a.jpg") ∧
    ((MediaAccessPolicyRegistry.mk
        [MediaAccessPolicy.mk ["images/"] (fun _ _ => Except.ok false)] true
        : MediaAccessPolicyRegistry Unit Unit).register
          (MediaAccessPolicy.mk ["profiles/"] (fun _ _ => Except.ok true))).get_policy_for_path
        (MPath.text "profiles/p.png")
      = some (MediaAccessPolicy.mk ["profiles/"] (fun _ _ => Except.ok true)) := by
  constructor
  · refine (register_append_monotone _ _ (MPath.text "images/a.jpg")).1 ?_
    rfl
  · refine (register_append_monotone _ _ (MPath.text "profiles/p.png")).2 ?_ ?_ <;> rfl

/-- C10: a policy whose restricted sequence contains the empty string matches
every path, text or bytes, including the empty path; consequently, in any
registry holding it, resolution never reaches a policy registered after it
(resolution over pre ++ P :: post equals resolution over pre ++ [P], so
earlier policies are never shadowed), and when no earlier policy matches, the
path resolves to this policy. -/
theorem empty_string_entry_matches_all {κ ε : Type} (P : MediaAccessPolicy κ ε)
    (h : "" ∈ P.restricted_prefixes) :
    (∀ path, P.matches path = true) ∧
    (∀ (pre post : List (MediaAccessPolicy κ ε)) (d : Bool) (p : MPath),
      (MediaAccessPolicyRegistry.mk (pre ++ P :: post) d).get_policy_for_path p
        = (MediaAccessPolicyRegistry.mk (pre ++ [P]) d).get_policy_for_path p ∧
      ((∀ Q ∈ pre, Q.matches p = false) →
        (MediaAccessPolicyRegistry.mk (pre ++ P :: post) d).get_policy_for_path p = some P)) := by
  have hall : ∀ path, P.matches path = true := by
    intro path
    cases path with
    | text s =>
      show P.restricted_prefixes.any (fun q => startsWithList q.data s.data) = true
      exact List.any_eq_true.mpr ⟨"", h, rfl⟩
    | bytes bs =>
      show (P.restricted_prefixes.map pyEncode).any (fun q => startsWithList q bs) = true
      exact List.any_eq_true.mpr ⟨pyEncode "", List.mem_map_of_mem _ h, rfl⟩
  refine ⟨hall, ?_⟩
  intro pre post d p
  have hm : (fun policy => MediaAccessPolicy.matches policy p) P = true := hall p
  constructor
  · show (pre ++ P :: post).find? (fun policy => policy.matches p)
      = (pre ++ [P]).find? (fun policy => policy.matches p)
    cases hq : pre.find? (fun policy => policy.matches p) with
    | some Q => rw [find?_app_of_some _ _ _ _ hq, find?_app_of_some _ _ _ _ hq]
    | none =>
      have e1 : List.find? (fun policy => policy.matches p) (P :: post) = some P :=
        List.find?_cons_of_pos _ hm
      have e2 : List.find? (fun policy => policy.matches p) [P] = some P :=
        List.find?_cons_of_pos _ hm
      rw [find?_app_of_none _ _ _ hq, find?_app_of_none _ _ _ hq, e1, e2]
  · intro hpre
    show (pre ++ P :: post).find? (fun policy => policy.matches p) = some P
    exact find?_of_first _ _ _ _ hpre hm

/-- Witness for C10: an empty-string policy matches an arbitrary text path, a
byte path and the empty path, and in a registry it captures every path no
earlier policy matches while an earlier matching policy still wins. -/
theorem empty_string_entry_matches_all_witness :
    (MediaAccessPolicy.mk [""] (fun _ _ => Except.ok false)
        : MediaAccessPolicy Unit Unit).matches (MPath.text "general/x.png") = true ∧
    (MediaAccessPolicy.mk [""] (fun _ _ => Except.ok false)
        : MediaAccessPolicy Unit Unit).matches (MPath.text "") = true ∧
    (MediaAccessPolicy.mk [""] (fun _ _ => Except.ok false)
        : MediaAccessPolicy Unit Unit).matches (MPath.bytes [120]) = true ∧
    (MediaAccessPolicyRegistry.mk
        [MediaAccessPolicy.mk ["images/"] (fun _ _ => Except.ok true),
         MediaAccessPolicy.mk [""] (fun _ _ => Except.ok false),
         MediaAccessPolicy.mk ["profiles/"] (fun _ _ => Except.ok true)] true
        : MediaAccessPolicyRegistry Unit Unit).get_policy_for_path (MPath.text "general/x.png")
      = some (MediaAccessPolicy.mk [""] (fun _ _ => Except.ok false)) := by
  refine ⟨(empty_string_entry_matches_all _ ?_).1 _, (empty_string_entry_matches_all _ ?_).1 _,
    (empty_string_entry_matches_all _ ?_).1 _, ?_⟩
  · decide
  · decide
  · decide
  · refine ((empty_string_entry_matches_all
        (MediaAccessPolicy.mk [""] (fun _ _ => Except.ok false) : MediaAccessPolicy Unit Unit)
        (by decide)).2
      [MediaAccessPolicy.mk ["images/"] (fun _ _ => Except.ok true)]
      [MediaAccessPolicy.mk ["profiles/"] (fun _ _ => Except.ok true)]
      true (MPath.text "general/x.png")).2 ?_
    intro Q hQ
    rcases List.mem_singleton.mp hQ with rfl
    rfl

/-- C5: the free function register resolves the target registry (the supplied
truthy value, else the process-wide default), then fails with ValueError when
the resolved target is not a MediaAccessPolicyRegistry or the supplied policy
is not a MediaAccessPolicy, leaving every registry unmutated; when both are of
the required kinds it appends the policy to the resolved target registry. -/
theorem register_validates_then_appends {κ ε : Type} (mp : PyVal κ ε)
    (pr : Option (PyVal κ ε)) (D : MediaAccessPolicyRegistry κ ε) :
    (pr = none → resolveRegistry pr D = PyVal.reg D) ∧
    (∀ R : MediaAccessPolicyRegistry κ ε, resolveRegistry pr D = PyVal.reg R →
      (∀ P, mp = PyVal.pol P → register mp pr D = Except.ok (R.register P)) ∧
      ((∀ P, mp ≠ PyVal.pol P) → register mp pr D
        = Except.error (PyError.valueError "Wrapped class must subclass MediaAccessPolicy."))) ∧
    ((∀ R : MediaAccessPolicyRegistry κ ε, resolveRegistry pr D ≠ PyVal.reg R) →
      register mp pr D
        = Except.error (PyError.valueError "registry must subclass MediaAccessPolicyRegistry")) := by
  refine ⟨?_, ?_, ?_⟩
  · intro h
    subst h
    rfl
  · intro R hR
    constructor
    · intro P hP
      subst hP
      unfold register
      rw [hR]
    · intro hP
      unfold register
      rw [hR]
      cases mp with
      | pol P => exact absurd rfl (hP P)
      | reg R2 => rfl
      | other t => rfl
  · intro h
    unfold register
    cases hres : resolveRegistry pr D with
    | pol P => rfl
    | reg R => exact absurd hres (h R)
    | other t => rfl

/-- Witness for C5: with no registry supplied a valid policy is appended to the
default registry; a non-policy value is rejected with ValueError; a truthy
non-registry value supplied as the registry is rejected with ValueError. -/
theorem register_validates_then_appends_witness :
    register (PyVal.pol (MediaAccessPolicy.mk ["images/"] (fun _ _ => Except.ok true)))
        none (MediaAccessPolicyRegistry.mk [] true : MediaAccessPolicyRegistry Unit Unit)
      = Except.ok ((MediaAccessPolicyRegistry.mk [] true
          : MediaAccessPolicyRegistry Unit Unit).register
        (MediaAccessPolicy.mk ["images/"] (fun _ _ => Except.ok true))) ∧
    register (PyVal.other true) none
        (MediaAccessPolicyRegistry.mk [] true : MediaAccessPolicyRegistry Unit Unit)
      = Except.error (PyError.valueError "Wrapped class must subclass MediaAccessPolicy.") ∧
    register (PyVal.pol (MediaAccessPolicy.mk ["images/"] (fun _ _ => Except.ok true)))
        (some (PyVal.other true))
        (MediaAccessPolicyRegistry.mk [] true : MediaAccessPolicyRegistry Unit Unit)
      = Except.error (PyError.valueError "registry must subclass MediaAccessPolicyRegistry") := by
  refine ⟨((register_validates_then_appends
      (PyVal.pol (MediaAccessPolicy.mk ["images/"] (fun _ _ => Except.ok true)))
      none
      (MediaAccessPolicyRegistry.mk [] true : MediaAccessPolicyRegistry Unit Unit)).2.1
      (MediaAccessPolicyRegistry.mk [] true) rfl).1 _ rfl,
    ((register_validates_then_appends
      (PyVal.other true) none
      (MediaAccessPolicyRegistry.mk [] true : MediaAccessPolicyRegistry Unit Unit)).2.1
      (MediaAccessPolicyRegistry.mk [] true) rfl).2 ?_,
    (register_validates_then_appends
      (PyVal.pol (MediaAccessPolicy.mk ["images/"] (fun _ _ => Except.ok true)))
      (some (PyVal.other true))
      (MediaAccessPolicyRegistry.mk [] true : MediaAccessPolicyRegistry Unit Unit)).2.2 ?_⟩
  · intro P hP
    exact PyVal.noConfusion hP
  · intro R hR
    exact PyVal.noConfusion hR

/-- C2 counterexample: a policy constructed with the byte form of "images/" as
its restricted entry does not match the corresponding text path; evaluated
under CPython dynamic typing, matches raises TypeError (str.startswith rejects
a bytes candidate) instead of returning True. -/
theorem mixed_representation_counterexample :
    matchesDyn [PyStrB.b (pyEncode "images/")] (PyStrB.s "images/a.jpg")
      = Except.error DynErr.typeError ∧
    matchesDyn [PyStrB.b (pyEncode "images/")] (PyStrB.s "images/a.jpg")
      ≠ Except.ok true := by
  have h1 : matchesDyn [PyStrB.b (pyEncode "images/")] (PyStrB.s "images/a.jpg")
      = Except.error DynErr.typeError := rfl
  refine ⟨h1, ?_⟩
  intro hc
  rw [h1] at hc
  exact Except.noConfusion hc

/-- C2 amended: a policy constructed with text entries matches both a text path
and its raw-byte equivalent when the path extends an entry; the reverse
direction does not hold: with a byte entry, matches raises TypeError on any
text path and AttributeError on any byte path (bytes entries are unsupported,
per the source annotation tuple[str, ...]). -/
theorem mixed_representation_amended {κ ε : Type} (P : MediaAccessPolicy κ ε)
    (pre t : String) (h : pre ∈ P.restricted_prefixes) :
    P.matches (MPath.text (pre ++ t)) = true ∧
    P.matches (MPath.bytes (pyEncode (pre ++ t))) = true ∧
    (∀ (bp : List Nat) (rest : List PyStrB) (sv : String),
      matchesDyn (PyStrB.b bp :: rest) (PyStrB.s sv) = Except.error DynErr.typeError) ∧
    (∀ (bp : List Nat) (rest : List PyStrB) (bs : List Nat),
      matchesDyn (PyStrB.b bp :: rest) (PyStrB.b bs) = Except.error DynErr.attributeError) :=
  ⟨matches_text_of_mem P pre t h, matches_bytes_of_mem P pre t h,
    fun _ _ _ => rfl, fun _ _ _ => rfl⟩

/-- Witness for the amended C2: the policy with text entry "images/" matches
the text path "images/a.jpg" and its byte encoding. -/
theorem mixed_representation_amended_witness :
    (MediaAccessPolicy.mk ["images/"] (fun _ _ => Except.ok true)
        : MediaAccessPolicy Unit Unit).matches (MPath.text "images/a.jpg") = true ∧
    (MediaAccessPolicy.mk ["images/"] (fun _ _ => Except.ok true)
        : MediaAccessPolicy Unit Unit).matches
      (MPath.bytes (pyEncode "images/a.jpg")) = true := by
  refine ⟨(mixed_representation_amended _ "images/" "a.jpg" ?_).1,
    (mixed_representation_amended _ "images/" "a.jpg" ?_).2.1⟩ <;> decide

end DjangoSecureMedia
